import Mathlib

set_option autoImplicit false
set_option maxHeartbeats 1000000

/-!
Verification of the multi-session WhatsApp messaging backend (session
lifecycle manager, recipient resolver, batch dispatch engine, webhook
notification bus) against its natural-language specification.

JavaScript strings are modelled as `List Char`, JS millisecond amounts as
`Int`, and `Math.random()` draws as rationals in `[0, 1)`.  Asynchronous
functions are modelled as pure state transformers; a thrown JS error is an
`Except.error` carrying the error message.
-/

/-- Strings of the JavaScript source, modelled as lists of characters. -/
abbrev Str := List Char

/-- ASCII model of the whitespace class matched by JS `\s` and `trim()`. -/
def isJsSpace (c : Char) : Bool :=
  c == ' ' || c == '\t' || c == '\n' || c == '\r' || c == '\x0b' || c == '\x0c'

/-- JS `String.prototype.trim()`: strip leading and trailing whitespace. -/
def jsTrim (s : Str) : Str :=
  ((s.dropWhile isJsSpace).reverse.dropWhile isJsSpace).reverse

/-- ASCII model of JS `String.prototype.toLowerCase()`. -/
def lowerChar (c : Char) : Char :=
  if 'A' ≤ c ∧ c ≤ 'Z' then Char.ofNat (c.toNat + 32) else c

/-- Lower-case an entire string (ASCII model). -/
def lowerStr (s : Str) : Str := s.map lowerChar

/-- Does the second list start with the first one? -/
def beginsWith : Str → Str → Bool
  | [], _ => true
  | _ :: _, [] => false
  | a :: n, b :: h => a == b && beginsWith n h

/-- JS `String.prototype.includes(needle)`: substring occurrence. -/
def jsIncludes (n : Str) : Str → Bool
  | [] => n.isEmpty
  | c :: h => beginsWith n (c :: h) || jsIncludes n h

/-- JS `replace(/\D/g, '')`: keep only the decimal digits. -/
def digitsOnly (s : Str) : Str := s.filter Char.isDigit

/-- JS `replace(/[\s\-\+]/g, '')`: drop whitespace, dashes and plus signs. -/
def stripSepChars (s : Str) : Str :=
  s.filter (fun c => !(isJsSpace c || c == '-' || c == '+'))

namespace Resolver

/-- Group-chat id suffix appended by the resolver. -/
def gSuffix : Str := "@g.us".toList

/-- Person-chat id suffix appended by the resolver. -/
def cSuffix : Str := "@c.us".toList

/-- The dash separator checked by shape 2 of the resolver. -/
def dashStr : Str := "-".toList

/-- One entry of `client.getChats()`: just the fields the resolver reads
(`isGroup`, `name`, `id._serialized`). -/
structure Chat where
  isGroup : Bool
  name : Option Str
  chatId : Str
deriving DecidableEq

/-- Return shape of the JS `resolveRecipient` (the object
`{id, name, found, partialMatch}`; fields absent from a given JS return
value are modelled as `none` / `false`). -/
structure Resolved where
  id : Option Str
  name : Option Str
  found : Option Bool
  partMatch : Bool
deriving DecidableEq

/-- JS truthiness of the `chat.name` field (`null` and `""` are falsy). -/
def nameTruthy (c : Chat) : Bool :=
  match c.name with
  | some n => !n.isEmpty
  | none => false

/-- The exact (case-insensitive) group-name match of `resolveRecipient`. -/
def exactNameMatch (recipient : Str) (c : Chat) : Bool :=
  c.isGroup && nameTruthy c && (lowerStr (c.name.getD []) == lowerStr recipient)

/-- The fallback substring group-name match of `resolveRecipient`
(the JS `partialMatch` branch). -/
def subNameMatch (recipient : Str) (c : Chat) : Bool :=
  c.isGroup && nameTruthy c && jsIncludes (lowerStr recipient) (lowerStr (c.name.getD []))

/-- Shallow embedding of `resolveRecipient` (message controller, lines
92–144).  `chats` stands for the result of `await client.getChats()`; the JS
`catch` around `getChats` is unreachable in this model because the chat list
is supplied directly. -/
def resolveRecipient (chats : List Chat) (recipient : Str) : Resolved :=
  if jsIncludes gSuffix recipient || jsIncludes cSuffix recipient then
    { id := some recipient, name := none, found := none, partMatch := false }
  else if jsIncludes dashStr recipient then
    { id := some (recipient ++ gSuffix), name := none, found := none, partMatch := false }
  else
    let cleanNumber := digitsOnly recipient
    if 10 ≤ cleanNumber.length ∧ cleanNumber = stripSepChars recipient then
      { id := some (cleanNumber ++ cSuffix), name := none, found := none, partMatch := false }
    else
      match chats.find? (exactNameMatch recipient) with
      | some c => { id := some c.chatId, name := c.name, found := some true, partMatch := false }
      | none =>
        match chats.find? (subNameMatch recipient) with
        | some c => { id := some c.chatId, name := c.name, found := some true, partMatch := true }
        | none => { id := none, name := some recipient, found := some false, partMatch := false }

/-- Modelled from the spec's words (§4.2 shapes 1–3, claim C4): the three
pure first-match-wins recipient shapes, written from the claim's wording so
that the code's `resolveRecipient` can be compared against it. -/
def specShapes123 (t : Str) : Option Resolved :=
  if jsIncludes gSuffix t || jsIncludes cSuffix t then
    some { id := some t, name := none, found := none, partMatch := false }
  else if jsIncludes dashStr t then
    some { id := some (t ++ gSuffix), name := none, found := none, partMatch := false }
  else if 10 ≤ (digitsOnly t).length ∧ digitsOnly t = stripSepChars t then
    some { id := some (digitsOnly t ++ cSuffix), name := none, found := none, partMatch := false }
  else none

end Resolver

/-- Helper: when the spec-side shape ladder fires, `resolveRecipient`
agrees with it on any chat list. -/
theorem resolveRecipient_of_specShapes (t : Str) (r : Resolver.Resolved)
    (h : Resolver.specShapes123 t = some r) (chats : List Resolver.Chat) :
    Resolver.resolveRecipient chats t = r := by
  unfold Resolver.specShapes123 at h
  unfold Resolver.resolveRecipient
  by_cases h1 : (jsIncludes Resolver.gSuffix t || jsIncludes Resolver.cSuffix t) = true
  · simp only [if_pos h1] at h ⊢
    exact Option.some.inj h
  · simp only [if_neg h1] at h ⊢
    by_cases h2 : jsIncludes Resolver.dashStr t = true
    · simp only [if_pos h2] at h ⊢
      exact Option.some.inj h
    · simp only [if_neg h2] at h ⊢
      by_cases h3 : 10 ≤ (digitsOnly t).length ∧ digitsOnly t = stripSepChars t
      · simp only [if_pos h3] at h ⊢
        exact Option.some.inj h
      · simp only [if_neg h3] at h
        exact absurd h (by simp)

/-- C4: shapes 1–3 of the Recipient Resolver are pure first-match-wins string
transforms: whenever the spec-side shape ladder produces a result, the code's
`resolveRecipient` returns exactly that result for every chat list — so the
first three shapes are deterministic and never consult the Connection
Handle. -/
theorem resolver_shapes123_deterministic (t : Str) (r : Resolver.Resolved)
    (h : Resolver.specShapes123 t = some r) (chats chats' : List Resolver.Chat) :
    Resolver.resolveRecipient chats t = r ∧ Resolver.resolveRecipient chats' t = r :=
  ⟨resolveRecipient_of_specShapes t r h chats, resolveRecipient_of_specShapes t r h chats'⟩

/-- Witness for C4 at the concrete shape-2 token `123-456`. -/
theorem resolver_shapes123_deterministic_witness :
    Resolver.specShapes123 ("123-456".toList) = some
      { id := some ("123-456@g.us".toList), name := none, found := none, partMatch := false } ∧
    Resolver.resolveRecipient [] ("123-456".toList) =
      { id := some ("123-456@g.us".toList), name := none, found := none, partMatch := false } :=
  ⟨by decide,
   (resolver_shapes123_deterministic ("123-456".toList)
     { id := some ("123-456@g.us".toList), name := none, found := none, partMatch := false }
     (by decide) [] []).1⟩

/-- Concrete chat list for claim C3: two groups whose names both contain the
token `alpha` as a substring, and no exact match. -/
def c3Chats : List Resolver.Chat :=
  [ { isGroup := true, name := some ("alpha one".toList), chatId := "111@g.us".toList },
    { isGroup := true, name := some ("alpha two".toList), chatId := "222@g.us".toList } ]

/-- C3 (claim false on the code): for the token `alpha`, which reaches the
group-name lookup with no exact match and two substring matches, the code
silently returns the first substring match (`alpha one`) — the return shape
has no ambiguous outcome at all — even though two chats match. -/
theorem resolver_substring_first_match_not_ambiguous :
    Resolver.resolveRecipient c3Chats ("alpha".toList) =
      { id := some ("111@g.us".toList), name := some ("alpha one".toList),
        found := some true, partMatch := true } ∧
    (c3Chats.filter (Resolver.subNameMatch ("alpha".toList))).length = 2 := by
  constructor <;> decide

/-- Association-list model of a JS `Map`: lookup by key. -/
def lookupA {β : Type} : List (Str × β) → Str → Option β
  | [], _ => none
  | (k, v) :: rest, key => if k = key then some v else lookupA rest key

/-- Association-list model of `Map.set`: replace or append. -/
def setA {β : Type} : List (Str × β) → Str → β → List (Str × β)
  | [], key, v => [(key, v)]
  | (k, w) :: rest, key, v =>
    if k = key then (key, v) :: rest else (k, w) :: setA rest key v

/-- Association-list model of `Map.delete`. -/
def removeA {β : Type} : List (Str × β) → Str → List (Str × β)
  | [], _ => []
  | (k, w) :: rest, key =>
    if k = key then removeA rest key else (k, w) :: removeA rest key

/-- Is an `Except` value a normal (non-thrown) result? -/
def okB {α β : Type} : Except α β → Bool
  | .ok _ => true
  | .error _ => false

/-- The trim in `jsTrim` is a `dropWhile` on the front composed with
Mathlib's `rdropWhile` on the back. -/
theorem jsTrim_eq_rdrop (s : Str) :
    jsTrim s = (s.dropWhile isJsSpace).rdropWhile isJsSpace := rfl

/-- Helper: a list with no leading whitespace keeps that property after its
trailing whitespace is removed. -/
theorem dropWhile_rdropWhile_of_self {v : Str}
    (hv : v.dropWhile isJsSpace = v) :
    (v.rdropWhile isJsSpace).dropWhile isJsSpace = v.rdropWhile isJsSpace := by
  obtain ⟨t, ht⟩ := List.rdropWhile_prefix isJsSpace v
  cases hr : v.rdropWhile isJsSpace with
  | nil => simp
  | cons a rest =>
    have hv' : v = a :: (rest ++ t) := by
      rw [← ht, hr]; simp
    have h0 : ¬ isJsSpace a = true := by
      rw [hv'] at hv
      have := List.dropWhile_eq_self_iff.mp hv (by simp)
      simpa using this
    rw [List.dropWhile_cons, if_neg h0]

/-- JS `trim()` is idempotent. -/
theorem jsTrim_idem (s : Str) : jsTrim (jsTrim s) = jsTrim s := by
  rw [jsTrim_eq_rdrop, jsTrim_eq_rdrop s]
  rw [dropWhile_rdropWhile_of_self (List.dropWhile_idempotent isJsSpace s)]
  exact List.rdropWhile_idempotent isJsSpace _

namespace Webhook

/-- The `webhookUrls` object built from environment variables at module
load: one optional default URL per category key. -/
structure EnvUrls where
  message : Option Str
  delivery : Option Str
  group : Option Str
  session : Option Str
deriving DecidableEq

/-- JS property lookup `webhookUrls[eventType]` (unknown keys give
`undefined`). -/
def envLookup (e : EnvUrls) (eventType : Str) : Option Str :=
  if eventType = "message".toList then e.message
  else if eventType = "delivery".toList then e.delivery
  else if eventType = "group".toList then e.group
  else if eventType = "session".toList then e.session
  else none

/-- State of the webhook manager: the `registeredWebhooks` map plus the
environment-variable defaults. -/
structure WebhookSt where
  registered : List (Str × Str)
  env : EnvUrls
deriving DecidableEq

/-- URL selection of `sendWebhook` (webhookManager, lines 49–61):
registered map first, environment default as fallback, JS falsiness
(`undefined`/`null`/`""`) deciding whether a URL "exists". -/
def lookupUrl (st : WebhookSt) (eventType : Str) : Option Str :=
  let url :=
    match lookupA st.registered eventType with
    | some u => if u.isEmpty then envLookup st.env eventType else some u
    | none => envLookup st.env eventType
  match url with
  | some u => if u.isEmpty then none else some u
  | none => none

/-- Observable outcome of one `sendWebhook` call: which URL (if any) was
POSTed to, and the error message of a failed POST (which is only logged). -/
structure SendTrace where
  posted : Option Str
  failedWith : Option Str
deriving DecidableEq

/-- Shallow embedding of `sendWebhook` (webhookManager, lines 49–76).
`post` is the outcome of the single `axios.post` (a timeout or network
failure is `.error msg`); the payload does not influence control flow and is
not modelled.  The JS `try`/`catch` turns a failed POST into a logged trace
instead of a thrown error. -/
def sendWebhook (st : WebhookSt) (post : Except Str Unit) (eventType : Str) :
    Except Str SendTrace :=
  match lookupUrl st eventType with
  | none => .ok { posted := none, failedWith := none }
  | some u =>
    match post with
    | .ok _ => .ok { posted := some u, failedWith := none }
    | .error e => .ok { posted := some u, failedWith := some e }

/-- URL a finished `sendWebhook` call POSTed to, if any. -/
def postedUrl : Except Str SendTrace → Option Str
  | .ok t => t.posted
  | .error _ => none

/-- Swallowed POST error of a finished `sendWebhook` call, if any. -/
def postErr : Except Str SendTrace → Option Str
  | .ok t => t.failedWith
  | .error _ => none

/-- Error message carried by a failed `axios.post` outcome. -/
def errOf : Except Str Unit → Option Str
  | .ok _ => none
  | .error e => some e

end Webhook

/-- C8: the notification bus never raises to its caller: for every registry
state, POST outcome and event category, `sendWebhook` finishes normally; it
POSTs exactly to the looked-up URL (none, when no URL is registered — a
silent drop with at most one attempt and no retry), and a failed POST is
recorded (logged) and swallowed rather than propagated. -/
theorem webhook_send_never_raises (st : Webhook.WebhookSt)
    (post : Except Str Unit) (eventType : Str) :
    okB (Webhook.sendWebhook st post eventType) = true ∧
    Webhook.postedUrl (Webhook.sendWebhook st post eventType)
      = Webhook.lookupUrl st eventType ∧
    Webhook.postErr (Webhook.sendWebhook st post eventType)
      = (match Webhook.lookupUrl st eventType with
         | some _ => Webhook.errOf post
         | none => none) := by
  unfold Webhook.sendWebhook
  cases hu : Webhook.lookupUrl st eventType with
  | none => simp [okB, Webhook.postedUrl, Webhook.postErr]
  | some u =>
    cases post with
    | ok _ => simp [okB, Webhook.postedUrl, Webhook.postErr, Webhook.errOf]
    | error e => simp [okB, Webhook.postedUrl, Webhook.postErr, Webhook.errOf]

namespace Manager

/-- Status literal `"pending"`. -/
def sPending : Str := "pending".toList

/-- Status literal `"qr"`. -/
def sQr : Str := "qr".toList

/-- Status literal `"connected"`. -/
def sConnected : Str := "connected".toList

/-- Status literal `"authenticated"`. -/
def sAuthenticated : Str := "authenticated".toList

/-- Status literal `"disconnected"`. -/
def sDisconnected : Str := "disconnected".toList

/-- Status literal `"auth_failed"`. -/
def sAuthFailed : Str := "auth_failed".toList

/-- Status literal `"failed"`. -/
def sFailed : Str := "failed".toList

/-- Status literal `"network_error"`. -/
def sNetworkError : Str := "network_error".toList

/-- One persisted session document (`models/session.js`): the fields the
lifecycle manager reads and writes.  `updatedAt` is in epoch milliseconds. -/
structure SessionRec where
  userId : Str
  sessionId : Str
  sessionName : Str
  status : Str
  updatedAt : Int
deriving DecidableEq

/-- `sessionModel.findOne({ sessionId })`. -/
def dbFind (db : List SessionRec) (sid : Str) : Option SessionRec :=
  db.find? (fun r => r.sessionId == sid)

/-- `sessionModel.findOneAndUpdate({ sessionId }, f)`: update the first
matching document. -/
def dbUpdateFirst : List SessionRec → Str → (SessionRec → SessionRec) → List SessionRec
  | [], _, _ => []
  | r :: rest, sid, f =>
    if r.sessionId = sid then f r :: rest else r :: dbUpdateFirst rest sid f

/-- `sessionModel.findOneAndDelete({ sessionId })`: drop the first matching
document. -/
def dbDeleteFirst : List SessionRec → Str → List SessionRec
  | [], _ => []
  | r :: rest, sid =>
    if r.sessionId = sid then rest else r :: dbDeleteFirst rest sid

/-- External oracles of a sequential (single-caller) run of the manager:
readiness of a pooled handle (truthiness of `client.info`), the outcome of
`Promise.race([client.initialize(), timeout])`, and `Date.now()`. -/
structure Env where
  ready : Nat → Bool
  initOutcome : Except Str Unit
  now : Int

/-- Error classification of `createClient` (waManager, lines 291–293). -/
def isNetworkErr (msg : Str) : Bool :=
  jsIncludes ("ERR_INTERNET_DISCONNECTED".toList) msg ||
  jsIncludes ("ERR_NAME_NOT_RESOLVED".toList) msg ||
  jsIncludes ("net::".toList) msg

/-- Mutable state owned by the manager: the module-level `clients` map
(handles are numbered), the persisted store, a counter naming the next
`new Client(...)`, and the durable `.wwebjs_auth/session-<id>` folders. -/
structure Mgr where
  pool : List (Str × Nat)
  db : List SessionRec
  nextHandle : Nat
  authDirs : List Str
deriving DecidableEq

/-- Fresh-construction tail of `createClient` (waManager, lines 84–316):
`new Client(...)` and `clients.set` happen unconditionally, then the
initialization race decides between returning the client and marking the
record `network_error`/`failed`, dropping the pool entry and rethrowing. -/
def createClientFresh (env : Env) (m : Mgr) (sessionId : Str) : Mgr × Except Str Nat :=
  let h := m.nextHandle
  let pool := setA m.pool sessionId h
  match env.initOutcome with
  | .ok _ => ({ m with pool := pool, nextHandle := h + 1 }, .ok h)
  | .error e =>
    let st := if isNetworkErr e then sNetworkError else sFailed
    let db := dbUpdateFirst m.db sessionId
      (fun r => { r with status := st, updatedAt := env.now })
    ({ m with pool := removeA pool sessionId, db := db, nextHandle := h + 1 }, .error e)

/-- Shallow embedding of `createClient` (waManager, lines 69–316) as a
sequential state transformer.  The leading `sessionModel.findOne` only
feeds the log display name and does not change state.  A JS property read
`existingClient.info` cannot throw, so the `catch` that deletes a stale
pool entry is unreachable: a present-but-not-ready client falls through to
fresh construction, whose `clients.set` overwrites the entry. -/
def createClient (env : Env) (m : Mgr) (sessionId : Str) : Mgr × Except Str Nat :=
  match lookupA m.pool sessionId with
  | some h => if env.ready h then (m, .ok h) else createClientFresh env m sessionId
  | none => createClientFresh env m sessionId

/-- Shallow embedding of `startNewSession` (waManager, lines 30–64).
`newUuid` models the fresh `uuidv4()` and `defaultName` the name built from
`new Date().toLocaleString()`.  The two `deleteMany` purges drop this
owner's stale terminal and stale-qr records, a `pending` record is created,
and then `createClient` is awaited — its failure is rethrown by the `catch`
(after `createClient` has already left the record terminal). -/
def startNewSession (env : Env) (m : Mgr) (userId sessionName newUuid defaultName : Str) :
    Mgr × Except Str Str :=
  let db := m.db.filter (fun r =>
    !(r.userId == userId && (r.status == sDisconnected || r.status == sAuthFailed) &&
      decide (r.updatedAt < env.now - 3600000)))
  let db := db.filter (fun r =>
    !(r.userId == userId && r.status == sQr && decide (r.updatedAt < env.now - 600000)))
  let sessionId := ("session_".toList) ++ newUuid
  let newRec : SessionRec :=
    { userId := userId, sessionId := sessionId,
      sessionName := if sessionName.isEmpty then defaultName else sessionName,
      status := sPending, updatedAt := env.now }
  match createClient env { m with db := db ++ [newRec] } sessionId with
  | (m2, .ok _) => (m2, .ok sessionId)
  | (m2, .error e) => (m2, .error e)

/-- Shallow embedding of `deleteSession` (waManager, lines 341–385).
`destroyOutcome` is the result of `client.destroy()`; when it throws, the
`catch` logs and — notably — the `clients.delete` inside the `try` is
skipped, so the stale pool entry survives.  `rmOutcome` is the result of
`fs.rmSync` on the `.wwebjs_auth/session-<id>` folder, attempted only when
`fs.existsSync` holds; when it throws, the `catch` logs and the folder
survives.  Step 2's `findOneAndDelete` runs either way. -/
def deleteSession (destroyOutcome rmOutcome : Except Str Unit) (m : Mgr) (sessionId : Str) :
    Mgr × Option SessionRec :=
  let pool :=
    match lookupA m.pool sessionId with
    | some _ =>
      match destroyOutcome with
      | .ok _ => removeA m.pool sessionId
      | .error _ => m.pool
    | none => m.pool
  let found := dbFind m.db sessionId
  let db := dbDeleteFirst m.db sessionId
  let auth :=
    if sessionId ∈ m.authDirs then
      match rmOutcome with
      | .ok _ => m.authDirs.filter (fun d => !(d == sessionId))
      | .error _ => m.authDirs
    else m.authDirs
  ({ m with pool := pool, db := db, authDirs := auth }, found)

/-- Shallow embedding of `deleteSessionController`
(session.controller, lines 76–94): HTTP status and success flag derived
from the `deleteSession` return value. -/
def deleteSessionController (destroyOutcome rmOutcome : Except Str Unit) (m : Mgr)
    (sessionId : Str) : Mgr × Nat × Bool :=
  match deleteSession destroyOutcome rmOutcome m sessionId with
  | (m', some _) => (m', 200, true)
  | (m', none) => (m', 404, false)

/-- Readiness poll of `restoreSession` (waManager, lines 476–500), modelled
with a static pool and readiness (a sequential run has no concurrent
writers): at fuel `0` the post-loop `clients.get` decides between returning
the possibly-unready client and falling through to the final throw. -/
def pollLoop (pool : List (Str × Nat)) (ready : Nat → Bool) (sessionId : Str) :
    Nat → Option Nat
  | 0 => lookupA pool sessionId
  | n + 1 =>
    match lookupA pool sessionId with
    | some h => if ready h then some h else pollLoop pool ready sessionId n
    | none => pollLoop pool ready sessionId n

/-- Load-and-create tail of `restoreSession` (waManager, lines 463–506):
database lookup (throwing `SessionNotFound` when absent), `createClient`,
then the bounded readiness poll; `createClient` errors are rethrown by the
surrounding `catch`. -/
def restoreSessionLoad (env : Env) (m : Mgr) (sessionId : Str) : Mgr × Except Str Nat :=
  match dbFind m.db sessionId with
  | none =>
    (m, .error (("Session ".toList) ++ sessionId ++ (" not found in database".toList)))
  | some _ =>
    match createClient env m sessionId with
    | (m', .error e) => (m', .error e)
    | (m', .ok _) =>
      match pollLoop m'.pool env.ready sessionId 30 with
      | some h => (m', .ok h)
      | none => (m', .error (("Failed to restore session: ".toList) ++ sessionId))

/-- Pool-check head of `restoreSession` (waManager, lines 450–461) on an
already-trimmed id: a pooled ready client returns immediately; a pooled
but unready client falls through (the `catch`-guarded delete cannot fire on
a plain property read). -/
def restoreSessionCore (env : Env) (m : Mgr) (sessionId : Str) : Mgr × Except Str Nat :=
  match lookupA m.pool sessionId with
  | some h => if env.ready h then (m, .ok h) else restoreSessionLoad env m sessionId
  | none => restoreSessionLoad env m sessionId

/-- Shallow embedding of `restoreSession` (waManager, lines 444–507): the
first statement trims the incoming session id. -/
def restoreSession (env : Env) (m : Mgr) (sessionId0 : Str) : Mgr × Except Str Nat :=
  restoreSessionCore env m (jsTrim sessionId0)

/-- Error wrapper of `getOrRestoreClient`'s `catch`. -/
def notAvailMsg (sid msg : Str) : Str :=
  ("Session ".toList) ++ sid ++ (" is not available. ".toList) ++ msg

/-- Message thrown when a restored client is still not ready. -/
def restoredNotConnMsg (sid : Str) : Str :=
  ("Session ".toList) ++ sid ++
    (" restored but not connected to WhatsApp. Please scan QR code or use an active session.".toList)

/-- Body of `getOrRestoreClient` (waManager, lines 513–550) on an
already-trimmed id: pooled ready client short-circuits (its database read
only feeds the log), otherwise `restoreSession` runs and its result must be
ready; every error is rewrapped by the `catch`. -/
def getOrRestoreClientCore (env : Env) (m : Mgr) (sessionId : Str) : Mgr × Except Str Nat :=
  match lookupA m.pool sessionId with
  | some h =>
    if env.ready h then (m, .ok h)
    else
      match restoreSession env m sessionId with
      | (m', .ok h') =>
        if env.ready h' then (m', .ok h')
        else (m', .error (notAvailMsg sessionId (restoredNotConnMsg sessionId)))
      | (m', .error e) => (m', .error (notAvailMsg sessionId e))
  | none =>
    match restoreSession env m sessionId with
    | (m', .ok h') =>
      if env.ready h' then (m', .ok h')
      else (m', .error (notAvailMsg sessionId (restoredNotConnMsg sessionId)))
    | (m', .error e) => (m', .error (notAvailMsg sessionId e))

/-- Shallow embedding of `getOrRestoreClient` (waManager, lines 513–550):
the first statement trims the incoming session id. -/
def getOrRestoreClient (env : Env) (m : Mgr) (sessionId0 : Str) : Mgr × Except Str Nat :=
  getOrRestoreClientCore env m (jsTrim sessionId0)

end Manager

namespace Race

/-- Program counter of one in-flight `restoreSession` call, with one atomic
segment between consecutive `await` suspension points. -/
inductive Pc
  | atStart
  | afterDb
  | inCreate
  | waitInit
  | done (h : Nat)
deriving DecidableEq

/-- The shared module-level `clients` map restricted to the one contended
session id, plus instrumentation counting `new Client(...)` constructions. -/
structure Pool where
  entry : Option Nat
  nextId : Nat
  created : Nat
deriving DecidableEq

/-- One atomic segment of `restoreSession`/`createClient` (waManager).
`atStart`: the pool check of `restoreSession` (lines 450–461) up to its
`await sessionModel.findOne`; a plain property read `client.info` cannot
throw, so the `catch`-guarded delete is unreachable and an unready entry
falls through.  `afterDb`: the existing-client check at the top of
`createClient` (lines 72–84) up to createClient's own `findOne`.
`inCreate`: `new Client(...)` plus `clients.set` (lines 87–127), then
suspension on `await client.initialize()`. -/
def step (ready : Nat → Bool) : Pc → Pool → Pc × Pool
  | .atStart, st =>
    (match st.entry with
     | some h => if ready h then (.done h, st) else (.afterDb, st)
     | none => (.afterDb, st))
  | .afterDb, st =>
    (match st.entry with
     | some h => if ready h then (.done h, st) else (.inCreate, st)
     | none => (.inCreate, st))
  | .inCreate, st =>
    (.waitInit, { entry := some st.nextId, nextId := st.nextId + 1, created := st.created + 1 })
  | .waitInit, st => (.waitInit, st)
  | .done h, st => (.done h, st)

/-- Interleave two concurrent `restoreSession` calls for the same session
id: `true` schedules the first task for one atomic segment, `false` the
second. -/
def run (ready : Nat → Bool) : List Bool → Pc × Pc × Pool → Pc × Pc × Pool
  | [], s => s
  | b :: rest, (p1, p2, st) =>
    if b then
      let x := step ready p1 st
      run ready rest (x.1, p2, x.2)
    else
      let x := step ready p2 st
      run ready rest (p1, x.1, x.2)

/-- Both tasks about to enter `restoreSession`, empty pool. -/
def initState : Pc × Pc × Pool :=
  (.atStart, .atStart, { entry := none, nextId := 0, created := 0 })

end Race

/-- C1 (claim fails on the code): interleaving two concurrent
`restoreSession` calls for one session id — each passing the pool check
while the pool is still empty or holds only an unready client — makes
`new Client(...)` run twice, and the second `clients.set` overwrites the
first handle.  No per-key lock or single-flight guard exists in the code,
so "exactly one underlying handle creation" is violated. -/
theorem restore_race_creates_two_handles :
    (Race.run (fun _ => false) [true, false, true, true, false, false] Race.initState).2.2.created = 2 ∧
    (Race.run (fun _ => false) [true, false, true, true, false, false] Race.initState).2.2.entry = some 1 := by
  constructor <;> rfl

/-- The `dbFind` of a cons, as a conditional. -/
theorem dbFind_cons (x : Manager.SessionRec) (xs : List Manager.SessionRec) (sid : Str) :
    Manager.dbFind (x :: xs) sid
      = if x.sessionId = sid then some x else Manager.dbFind xs sid := by
  unfold Manager.dbFind
  by_cases hx : x.sessionId = sid
  · simp [List.find?_cons, hx]
  · simp [List.find?_cons, hx]

/-- A session id absent from the store stays absent after any `deleteMany`
purge (modelled as `filter`). -/
theorem dbFind_filter_none (db : List Manager.SessionRec) (sid : Str)
    (p : Manager.SessionRec → Bool) (h : Manager.dbFind db sid = none) :
    Manager.dbFind (db.filter p) sid = none := by
  unfold Manager.dbFind at h ⊢
  rw [List.find?_eq_none] at h ⊢
  intro x hx
  exact h x (List.mem_of_mem_filter hx)

/-- Updating the freshly appended record when the session id is new. -/
theorem dbUpdateFirst_append_of_none (sid : Str) (r : Manager.SessionRec)
    (f : Manager.SessionRec → Manager.SessionRec) (hr : r.sessionId = sid) :
    ∀ xs, Manager.dbFind xs sid = none →
      Manager.dbUpdateFirst (xs ++ [r]) sid f = xs ++ [f r]
  | [], _ => by simp [Manager.dbUpdateFirst, hr]
  | x :: xs, h => by
    rw [dbFind_cons] at h
    by_cases hx : x.sessionId = sid
    · simp [hx] at h
    · simp only [List.cons_append, Manager.dbUpdateFirst, if_neg hx, List.append_eq]
      rw [dbUpdateFirst_append_of_none sid r f hr xs (by simpa [hx] using h)]

/-- Finding the freshly appended record when the session id is new. -/
theorem dbFind_append_of_none (sid : Str) (r : Manager.SessionRec) (hr : r.sessionId = sid) :
    ∀ xs, Manager.dbFind xs sid = none → Manager.dbFind (xs ++ [r]) sid = some r
  | [], _ => by simp [dbFind_cons, hr]
  | x :: xs, h => by
    rw [dbFind_cons] at h
    by_cases hx : x.sessionId = sid
    · simp [hx] at h
    · rw [List.cons_append, dbFind_cons, if_neg hx]
      exact dbFind_append_of_none sid r hr xs (by simpa [hx] using h)

/-- Environment for the C2 counterexample: initialization fails with
message `boom` (a non-network error). -/
def c2Env : Manager.Env :=
  { ready := fun _ => false, initOutcome := .error ("boom".toList), now := 0 }

/-- Empty manager state for the C2 counterexample. -/
def c2Mgr : Manager.Mgr := { pool := [], db := [], nextHandle := 0, authDirs := [] }

/-- C2 (claim fails on the code): when connection creation fails after the
`pending` record is written, `startNewSession` does NOT return the fresh
sessionId — its `catch` rethrows the creation error — although the record
is indeed left terminal (`failed`). -/
theorem start_session_failure_raises :
    (Manager.startNewSession c2Env c2Mgr ("user1".toList) [] ("u1".toList) ("S".toList)).2
      = .error ("boom".toList) ∧
    (Manager.dbFind
        (Manager.startNewSession c2Env c2Mgr ("user1".toList) [] ("u1".toList) ("S".toList)).1.db
        ("session_u1".toList)).map Manager.SessionRec.status
      = some ("failed".toList) := by
  constructor <;> rfl

/-- C2 as amended: for every state in which the fresh sessionId is really
fresh (unknown to the store and the pool), a failing initialization leaves
the persisted record in a terminal state (`network_error` for
network-classified messages, else `failed`) — but the call raises the
creation error instead of returning the sessionId. -/
theorem start_session_create_failure_terminal (env : Manager.Env) (m : Manager.Mgr)
    (userId sessionName newUuid defaultName e : Str)
    (hinit : env.initOutcome = .error e)
    (hdbFresh : Manager.dbFind m.db (("session_".toList) ++ newUuid) = none)
    (hpoolFresh : lookupA m.pool (("session_".toList) ++ newUuid) = none) :
    (Manager.startNewSession env m userId sessionName newUuid defaultName).2 = .error e ∧
    (Manager.dbFind
        (Manager.startNewSession env m userId sessionName newUuid defaultName).1.db
        (("session_".toList) ++ newUuid)).map Manager.SessionRec.status
      = some (if Manager.isNetworkErr e then Manager.sNetworkError else Manager.sFailed) := by
  have hdb1 : Manager.dbFind (List.filter (fun r =>
      !(r.userId == userId && (r.status == Manager.sDisconnected || r.status == Manager.sAuthFailed) &&
        decide (r.updatedAt < env.now - 3600000))) m.db) (("session_".toList) ++ newUuid) = none :=
    dbFind_filter_none _ _ _ hdbFresh
  have hdb2 : Manager.dbFind (List.filter (fun r =>
      !(r.userId == userId && r.status == Manager.sQr && decide (r.updatedAt < env.now - 600000)))
      (List.filter (fun r =>
        !(r.userId == userId && (r.status == Manager.sDisconnected || r.status == Manager.sAuthFailed) &&
          decide (r.updatedAt < env.now - 3600000))) m.db)) (("session_".toList) ++ newUuid) = none :=
    dbFind_filter_none _ _ _ hdb1
  unfold Manager.startNewSession Manager.createClient Manager.createClientFresh
  simp only [hpoolFresh, hinit]
  rw [dbUpdateFirst_append_of_none _ _ _ rfl _ hdb2]
  refine ⟨by trivial, ?_⟩
  rw [dbFind_append_of_none _ _ rfl _ hdb2]
  rfl

/-- Witness for the amended C2 at a concrete failing state. -/
theorem start_session_create_failure_terminal_witness :
    c2Env.initOutcome = .error ("boom".toList) ∧
    (Manager.startNewSession c2Env c2Mgr ("user1".toList) [] ("u1".toList) ("S".toList)).2
      = .error ("boom".toList) :=
  ⟨rfl,
   (start_session_create_failure_terminal c2Env c2Mgr ("user1".toList) [] ("u1".toList)
     ("S".toList) ("boom".toList) rfl rfl rfl).1⟩

/-- Deleting every pool entry for a key makes its lookup fail. -/
theorem lookupA_removeA {β : Type} (key : Str) :
    ∀ l : List (Str × β), lookupA (removeA l key) key = none
  | [] => rfl
  | (k, v) :: rest => by
    by_cases hk : k = key
    · simp [removeA, hk, lookupA_removeA key rest]
    · simp [removeA, hk, lookupA, lookupA_removeA key rest]

/-- Deleting the only matching record makes its lookup fail. -/
theorem dbFind_deleteFirst (sid : Str) :
    ∀ db : List Manager.SessionRec,
      (db.filter (fun r => r.sessionId == sid)).length ≤ 1 →
      Manager.dbFind (Manager.dbDeleteFirst db sid) sid = none
  | [], _ => rfl
  | x :: xs, h => by
    by_cases hx : x.sessionId = sid
    · have hcount : (List.filter (fun r => r.sessionId == sid) (x :: xs)).length
          = (List.filter (fun r => r.sessionId == sid) xs).length + 1 := by
        rw [List.filter_cons, if_pos (by simpa using hx)]
        rfl
      rw [hcount] at h
      have hlen : (List.filter (fun r => r.sessionId == sid) xs).length = 0 := by omega
      have hnone : Manager.dbFind xs sid = none := by
        unfold Manager.dbFind
        rw [List.find?_eq_none]
        intro y hy hby
        have hmem : y ∈ List.filter (fun r => r.sessionId == sid) xs :=
          List.mem_filter.mpr ⟨hy, hby⟩
        rw [List.length_eq_zero] at hlen
        rw [hlen] at hmem
        exact absurd hmem (List.not_mem_nil y)
      unfold Manager.dbDeleteFirst
      rw [if_pos hx]
      exact hnone
    · have hcount : (List.filter (fun r => r.sessionId == sid) (x :: xs)).length
          = (List.filter (fun r => r.sessionId == sid) xs).length := by
        rw [List.filter_cons, if_neg (by simpa using hx)]
      rw [hcount] at h
      unfold Manager.dbDeleteFirst
      rw [if_neg hx, dbFind_cons, if_neg hx]
      exact dbFind_deleteFirst sid xs h

/-- Manager state for the C9 artifacts: one pooled handle, one persisted
record, one auth folder for session `sid1`. -/
def c9Mgr : Manager.Mgr :=
  { pool := [(("sid1".toList), 0)],
    db := [{ userId := ("u".toList), sessionId := ("sid1".toList),
             sessionName := ("n".toList), status := ("connected".toList),
             updatedAt := 0 }],
    nextHandle := 1, authDirs := [("sid1".toList)] }

/-- C9 (claim fails on the code): when `client.destroy()` throws while
deleting an existing session, the `clients.delete` inside the `try` is
skipped — the in-memory handle stays pooled — yet the persisted record is
still deleted and its existence returned, contradicting the claim's
unconditional "removes both the in-memory handle (if any) and the persisted
Session Record". -/
theorem delete_session_destroy_failure_leaves_handle :
    (Manager.deleteSession (.error ("boom".toList)) (.ok ()) c9Mgr ("sid1".toList)).2
      = some { userId := ("u".toList), sessionId := ("sid1".toList),
               sessionName := ("n".toList), status := ("connected".toList),
               updatedAt := 0 } ∧
    lookupA (Manager.deleteSession (.error ("boom".toList)) (.ok ()) c9Mgr
        ("sid1".toList)).1.pool ("sid1".toList) = some 0 ∧
    Manager.dbFind (Manager.deleteSession (.error ("boom".toList)) (.ok ()) c9Mgr
        ("sid1".toList)).1.db ("sid1".toList) = none := by
  refine ⟨rfl, rfl, rfl⟩

/-- C9 as amended: `deleteSession` returns exactly the previously persisted
record (`none` is the not-found signal; the function never throws in this
model) and always deletes the record (unique per session id); the in-memory
handle is removed exactly when `client.destroy()` succeeds (a throwing
destroy is logged and leaves the stale pool entry); the auth folder is
purged when `fs.rmSync` succeeds, and a throwing `rmSync` is swallowed
leaving the folders untouched; the HTTP controller maps the return value to
200/404. -/
theorem delete_session_returns_existence_and_purges (d rm : Except Str Unit)
    (m : Manager.Mgr) (sid : Str)
    (huniq : (m.db.filter (fun r => r.sessionId == sid)).length ≤ 1) :
    (Manager.deleteSession d rm m sid).2 = Manager.dbFind m.db sid ∧
    Manager.dbFind (Manager.deleteSession d rm m sid).1.db sid = none ∧
    lookupA (Manager.deleteSession d rm m sid).1.pool sid
      = (if okB d then none else lookupA m.pool sid) ∧
    (okB rm = true → sid ∉ (Manager.deleteSession d rm m sid).1.authDirs) ∧
    (okB rm = false → (Manager.deleteSession d rm m sid).1.authDirs = m.authDirs) ∧
    (Manager.deleteSessionController d rm m sid).2.1
      = (if (Manager.dbFind m.db sid).isSome then 200 else 404) := by
  refine ⟨rfl, dbFind_deleteFirst sid m.db huniq, ?_, ?_, ?_, ?_⟩
  · unfold Manager.deleteSession
    cases hp : lookupA m.pool sid with
    | some h0 =>
      cases d with
      | ok u => simpa [okB] using lookupA_removeA sid m.pool
      | error e => simpa [okB] using hp
    | none =>
      cases d with
      | ok u => simpa [okB] using hp
      | error e => simpa [okB] using hp
  · intro hrm
    cases rm with
    | ok u =>
      unfold Manager.deleteSession
      by_cases hmem : sid ∈ m.authDirs
      · simp only [if_pos hmem]
        intro hx
        rw [List.mem_filter] at hx
        simp at hx
      · simp only [if_neg hmem]
        exact hmem
    | error e => exact absurd hrm (by simp [okB])
  · intro hrm
    cases rm with
    | ok u => exact absurd hrm (by simp [okB])
    | error e =>
      unfold Manager.deleteSession
      by_cases hmem : sid ∈ m.authDirs
      · simp [hmem]
      · simp [hmem]
  · unfold Manager.deleteSessionController Manager.deleteSession
    cases hf : Manager.dbFind m.db sid with
    | some r => simp [hf]
    | none => simp [hf]

/-- Witness for the amended C9, destroy and rm both succeeding. -/
theorem delete_session_returns_existence_and_purges_witness :
    (Manager.deleteSession (.ok ()) (.ok ()) c9Mgr ("sid1".toList)).2
      = some { userId := ("u".toList), sessionId := ("sid1".toList),
               sessionName := ("n".toList), status := ("connected".toList),
               updatedAt := 0 } ∧
    lookupA (Manager.deleteSession (.ok ()) (.ok ()) c9Mgr
        ("sid1".toList)).1.pool ("sid1".toList) = none := by
  have h := delete_session_returns_existence_and_purges (.ok ()) (.ok ()) c9Mgr
    ("sid1".toList) (by decide)
  refine ⟨?_, ?_⟩
  · rw [h.1]
    rfl
  · rw [h.2.2.1]
    rfl

/-- C10: `restoreSession` and `getOrRestoreClient` first trim the incoming
session id, so a call with `s` is indistinguishable (same result, same
resulting pool and store) from a call with `trim(s)`. -/
theorem restore_trims_session_id (env : Manager.Env) (m : Manager.Mgr) (s : Str) :
    Manager.restoreSession env m s = Manager.restoreSession env m (jsTrim s) ∧
    Manager.getOrRestoreClient env m s = Manager.getOrRestoreClient env m (jsTrim s) := by
  unfold Manager.restoreSession Manager.getOrRestoreClient
  rw [jsTrim_idem]
  exact ⟨rfl, rfl⟩

namespace Batch

/-- One media item (local upload or fetched remote URL): the two metadata
fields that reach the ledger. -/
structure Media where
  mimeType : Str
  filename : Str
deriving DecidableEq

/-- A client as `getOrRestoreClient` returns it: truthiness of
`client.info` plus the chat list `getChats()` yields. -/
structure Client where
  info : Bool
  chats : List Resolver.Chat
deriving DecidableEq

/-- Request of `sendBatchMessage` after JSON parsing and upload staging
(`to` is `recipients` here). -/
structure BatchReq where
  sessionIds : List Str
  recipients : List Str
  text : Option Str
  localMedia : List Media
  remoteMedia : List Media
  delayMin : Int
  delayMax : Int

/-- External oracles of one batch run: the `getOrRestoreClient` outcome per
session id, the outcome of the n-th `client.sendMessage` call overall
(message id, or thrown error), and the n-th `Math.random()` draw. -/
structure BatchEnv where
  getOrRestore : Str → Except Str Client
  send : Nat → Except Str Str
  rand : Nat → ℚ

/-- `randomDelay` (message controller, lines 62–63):
`Math.floor(Math.random() * (max - min + 1)) + min`. -/
def randomDelay (dmin dmax : Int) (q : ℚ) : Int :=
  ⌊q * ((dmax : ℚ) - (dmin : ℚ) + 1)⌋ + dmin

/-- JS truthiness of `text?.trim()`. -/
def hasTextB (t : Option Str) : Bool :=
  match t with
  | some s => !(jsTrim s).isEmpty
  | none => false

/-- Status literal `"sent"`. -/
def stSent : Str := "sent".toList

/-- Status literal `"failed"`. -/
def stFailed : Str := "failed".toList

/-- One element of the `results` ledger.  `toId` is the JS field `to`,
`contentType` the JS field `type`; fields a given JS object lacks are
`none`. -/
structure Entry where
  sessionId : Str
  toId : Option Str := none
  originalRecipient : Option Str := none
  groupName : Option Str := none
  contentType : Option Str := none
  filename : Option Str := none
  status : Option Str := none
  messageId : Option Str := none
  error : Option Str := none
deriving DecidableEq

/-- What happened to one (recipient, session) pair. -/
inductive PairRes
  | noClient
  | unresolved
  | itemsErr (e : Str)
  | itemsOk
deriving DecidableEq

/-- Instrumented record of one (recipient, session) pair of the round-robin
loop: its outcome, the slept delay (if any) and the ledger entries it
pushed. -/
structure PairLog where
  recipient : Str
  sessionId : Str
  res : PairRes
  slept : Option Int
  entries : List Entry
deriving DecidableEq

/-- Does this pair outcome reach the `await delay(...)` statement? -/
def resSleeps : PairRes → Bool
  | .itemsOk => true
  | _ => false

/-- Ledger entry pushed when the recipient fails to resolve
(message controller, lines 239–244). -/
def unresEntry (s r : Str) : Entry :=
  { sessionId := s, toId := some r, status := some stFailed,
    error := some (("Recipient not found: ".toList) ++ r) }

/-- Ledger entry pushed by the pair-level `catch` after a send throws
(message controller, lines 328–333). -/
def catchEntry (s r e : Str) : Entry :=
  { sessionId := s, toId := some r, status := some stFailed, error := some e }

/-- Ledger entry for a sent text message (lines 257–265). -/
def textEntry (s rid r gname mid : Str) : Entry :=
  { sessionId := s, toId := some rid, originalRecipient := some r,
    groupName := some gname, contentType := some ("text".toList),
    status := some stSent, messageId := some mid }

/-- Ledger entry for a sent local media item (lines 284–293). -/
def localEntry (s rid r gname : Str) (md : Media) (mid : Str) : Entry :=
  { sessionId := s, toId := some rid, originalRecipient := some r,
    groupName := some gname, contentType := some md.mimeType,
    filename := some md.filename, status := some stSent, messageId := some mid }

/-- Ledger entry for a sent remote media item (lines 307–315; no filename
field on the JS object). -/
def remoteEntry (s rid r gname : Str) (md : Media) (mid : Str) : Entry :=
  { sessionId := s, toId := some rid, originalRecipient := some r,
    groupName := some gname, contentType := some md.mimeType,
    status := some stSent, messageId := some mid }

/-- Client-prep failure entry `{sessionId, error}` (lines 212, 218). -/
def prepErrEntry (s e : Str) : Entry :=
  { sessionId := s, error := some e }

/-- JS `resolved.name || recipient`. -/
def orRecipient (n : Option Str) (r : Str) : Str :=
  match n with
  | some x => if x.isEmpty then r else x
  | none => r

/-- Send every local media item in order (lines 269–294); a thrown send
aborts the remaining items of the pair.  Returns the pushed entries, the
next global send counter, and the thrown error if any. -/
def sendLocalItems (env : BatchEnv) (s rid r gname : Str) :
    List Media → Nat → List Entry × Nat × Option Str
  | [], sc => ([], sc, none)
  | md :: ms, sc =>
    match env.send sc with
    | .error e => ([], sc + 1, some e)
    | .ok mid =>
      let rest := sendLocalItems env s rid r gname ms (sc + 1)
      (localEntry s rid r gname md mid :: rest.1, rest.2.1, rest.2.2)

/-- Send every remote media item in order (lines 297–316). -/
def sendRemoteItems (env : BatchEnv) (s rid r gname : Str) :
    List Media → Nat → List Entry × Nat × Option Str
  | [], sc => ([], sc, none)
  | md :: ms, sc =>
    match env.send sc with
    | .error e => ([], sc + 1, some e)
    | .ok mid =>
      let rest := sendRemoteItems env s rid r gname ms (sc + 1)
      (remoteEntry s rid r gname md mid :: rest.1, rest.2.1, rest.2.2)

/-- Content dispatch for one resolved pair (lines 251–317): text only when
no media is present, otherwise all local then all remote media items
(captions only change message content, not the ledger). -/
def sendItems (env : BatchEnv) (req : BatchReq) (s rid r gname : Str) (sc : Nat) :
    List Entry × Nat × Option Str :=
  if req.localMedia.isEmpty && req.remoteMedia.isEmpty then
    if hasTextB req.text then
      match env.send sc with
      | .ok mid => ([textEntry s rid r gname mid], sc + 1, none)
      | .error e => ([], sc + 1, some e)
    else ([], sc, none)
  else
    let lres := sendLocalItems env s rid r gname req.localMedia sc
    match lres.2.2 with
    | some e => (lres.1, lres.2.1, some e)
    | none =>
      let rres := sendRemoteItems env s rid r gname req.remoteMedia lres.2.1
      (lres.1 ++ rres.1, rres.2.1, rres.2.2)

/-- One (recipient, session) pair of the round-robin loop (lines 233–334):
resolve, dispatch the content items, then the randomized delay — the
pair-level `catch` records the thrown error and skips the delay.  Returns
the pair log and the updated send / random-draw counters. -/
def processPair (env : BatchEnv) (req : BatchReq) (s : Str) (c : Client) (r : Str)
    (sc rc : Nat) : PairLog × Nat × Nat :=
  match (Resolver.resolveRecipient c.chats r).id with
  | none =>
    ({ recipient := r, sessionId := s, res := .unresolved, slept := none,
       entries := [unresEntry s r] }, sc, rc)
  | some rid =>
    let gname := orRecipient (Resolver.resolveRecipient c.chats r).name r
    let sres := sendItems env req s rid r gname sc
    match sres.2.2 with
    | some e =>
      ({ recipient := r, sessionId := s, res := .itemsErr e, slept := none,
         entries := sres.1 ++ [catchEntry s r e] }, sres.2.1, rc)
    | none =>
      ({ recipient := r, sessionId := s, res := .itemsOk,
         slept := some (randomDelay req.delayMin req.delayMax (env.rand rc)),
         entries := sres.1 }, sres.2.1, rc + 1)

/-- Inner loop over `sessionIds` for one recipient (lines 226–335); a
session without a prepared client is skipped with `continue`. -/
def innerLoop (env : BatchEnv) (req : BatchReq) (cmap : Str → Option Client) (r : Str) :
    List Str → Nat → Nat → List PairLog × Nat × Nat
  | [], sc, rc => ([], sc, rc)
  | s :: ss, sc, rc =>
    match cmap s with
    | none =>
      let rest := innerLoop env req cmap r ss sc rc
      ({ recipient := r, sessionId := s, res := .noClient, slept := none,
         entries := [] } :: rest.1, rest.2)
    | some c =>
      let pres := processPair env req s c r sc rc
      let rest := innerLoop env req cmap r ss pres.2.1 pres.2.2
      (pres.1 :: rest.1, rest.2)

/-- Outer loop over recipients (lines 225–336). -/
def outerLoop (env : BatchEnv) (req : BatchReq) (cmap : Str → Option Client) :
    List Str → Nat → Nat → List PairLog × Nat × Nat
  | [], sc, rc => ([], sc, rc)
  | r :: rs, sc, rc =>
    let ires := innerLoop env req cmap r req.sessionIds sc rc
    let rest := outerLoop env req cmap rs ires.2.1 ires.2.2
    (ires.1 ++ rest.1, rest.2)

/-- Client-prep loop (lines 206–220): build the ready-client map, pushing
one `{sessionId, error}` entry per failed or unready session. -/
def prepGo (env : BatchEnv) : List Str → List Entry → (Str → Option Client) →
    List Entry × (Str → Option Client)
  | [], es, cm => (es, cm)
  | s :: ss, es, cm =>
    match env.getOrRestore s with
    | .error e => prepGo env ss (es ++ [prepErrEntry s e]) cm
    | .ok c =>
      if c.info then prepGo env ss es (fun x => if x = s then some c else cm x)
      else prepGo env ss (es ++ [prepErrEntry s ("Client not ready yet".toList)]) cm

/-- `clientMap` construction of `sendBatchMessage`. -/
def prepClients (env : BatchEnv) (ss : List Str) : List Entry × (Str → Option Client) :=
  prepGo env ss [] (fun _ => none)

/-- The client the prep loop ends up storing for a session id. -/
def readyClient (env : BatchEnv) (s : Str) : Option Client :=
  match env.getOrRestore s with
  | .ok c => if c.info then some c else none
  | .error _ => none

/-- Outcome of one `sendBatchMessage` call: an express 400 with its error
text, or the 200 body (`success: true`, `total`, `results`) plus the
per-pair instrumentation. -/
inductive BatchOut
  | badRequest (error : Str)
  | ok (total : Nat) (results : List Entry) (pairLogs : List PairLog)
deriving DecidableEq

/-- Shallow embedding of `sendBatchMessage` (message controller, lines
146–352) after JSON parsing and media staging (remote-media fetches are
assumed to succeed — their failure would 500 the call before any send).
Validation mirrors lines 161–169; the ledger is the prep-loop errors
followed by the per-pair entries in loop order. -/
def sendBatchMessage (env : BatchEnv) (req : BatchReq) : BatchOut :=
  if req.sessionIds.isEmpty then .badRequest ("sessionIds (array) required".toList)
  else if req.recipients.isEmpty then .badRequest ("to (array) required".toList)
  else if !hasTextB req.text && req.localMedia.isEmpty && req.remoteMedia.isEmpty then
    .badRequest ("text or media files required".toList)
  else
    let prep := prepClients env req.sessionIds
    let main := outerLoop env req prep.2 req.recipients 0 0
    let results := prep.1 ++ main.1.bind (fun p => p.entries)
    .ok results.length results main.1

/-- Did the call return the 200 body? -/
def outIsOk : BatchOut → Bool
  | .ok _ _ _ => true
  | .badRequest _ => false

/-- Pair logs of a 200 response (empty on a 400). -/
def outLogs : BatchOut → List PairLog
  | .ok _ _ l => l
  | .badRequest _ => []

/-- Ledger of a 200 response (empty on a 400). -/
def outResults : BatchOut → List Entry
  | .ok _ r _ => r
  | .badRequest _ => []

end Batch

/-- Everything a single processed pair guarantees: it logs its own
recipient and session, is never a `noClient` log, pushes the documented
failure entries, and sleeps exactly when all its items succeeded — a fresh
`randomDelay` draw. -/
theorem processPair_spec (env : Batch.BatchEnv) (req : Batch.BatchReq)
    (s : Str) (c : Batch.Client) (r : Str) (sc rc : Nat) :
    (Batch.processPair env req s c r sc rc).1.recipient = r ∧
    (Batch.processPair env req s c r sc rc).1.sessionId = s ∧
    (Batch.processPair env req s c r sc rc).1.res ≠ Batch.PairRes.noClient ∧
    ((Batch.processPair env req s c r sc rc).1.res = Batch.PairRes.unresolved →
      (Batch.processPair env req s c r sc rc).1.entries = [Batch.unresEntry s r]) ∧
    (∀ e, (Batch.processPair env req s c r sc rc).1.res = Batch.PairRes.itemsErr e →
      Batch.catchEntry s r e ∈ (Batch.processPair env req s c r sc rc).1.entries) ∧
    (Batch.processPair env req s c r sc rc).1.slept.isSome
      = Batch.resSleeps (Batch.processPair env req s c r sc rc).1.res ∧
    (∀ d, (Batch.processPair env req s c r sc rc).1.slept = some d →
      d = Batch.randomDelay req.delayMin req.delayMax (env.rand rc)) := by
  simp only [Batch.processPair]
  split
  · refine ⟨rfl, rfl, by simp, fun _ => rfl, ?_, rfl, ?_⟩
    · intro e he
      exact absurd he (by simp)
    · intro d hd
      exact absurd hd (by simp)
  · split
    · refine ⟨rfl, rfl, by simp, ?_, ?_, rfl, ?_⟩
      · intro hu
        exact absurd hu (by simp)
      · intro e he
        have he' := (Batch.PairRes.itemsErr.injEq _ _).mp he
        subst he'
        simp
      · intro d hd
        exact absurd hd (by simp)
    · refine ⟨rfl, rfl, by simp, ?_, ?_, rfl, ?_⟩
      · intro hu
        exact absurd hu (by simp)
      · intro e he
        exact absurd he (by simp)
      · intro d hd
        simpa using hd.symm

/-- Invariant of the inner session loop: the logged pairs are exactly
`(r, s)` for the traversed session ids in order, and every log satisfies
the per-pair guarantees. -/
theorem innerLoop_spec (env : Batch.BatchEnv) (req : Batch.BatchReq)
    (cmap : Str → Option Batch.Client) (r : Str) :
    ∀ (ss : List Str) (sc rc : Nat),
      ((Batch.innerLoop env req cmap r ss sc rc).1.map (fun p => (p.recipient, p.sessionId))
        = ss.map (fun s => (r, s))) ∧
      ∀ p ∈ (Batch.innerLoop env req cmap r ss sc rc).1,
        (p.res = Batch.PairRes.noClient → cmap p.sessionId = none ∧ p.entries = []) ∧
        (p.res = Batch.PairRes.unresolved →
          p.entries = [Batch.unresEntry p.sessionId p.recipient]) ∧
        (∀ e, p.res = Batch.PairRes.itemsErr e →
          Batch.catchEntry p.sessionId p.recipient e ∈ p.entries) ∧
        p.slept.isSome = Batch.resSleeps p.res ∧
        (∀ d, p.slept = some d →
          ∃ k, d = Batch.randomDelay req.delayMin req.delayMax (env.rand k))
  | [], sc, rc => ⟨rfl, by intro p hp; exact absurd hp (List.not_mem_nil p)⟩
  | s :: ss, sc, rc => by
    simp only [Batch.innerLoop]
    split
    next hc =>
      constructor
      · simp only [List.map_cons]
        rw [(innerLoop_spec env req cmap r ss sc rc).1]
      · intro p hp
        rcases List.mem_cons.mp hp with hp | hp
        · subst hp
          exact ⟨fun _ => ⟨hc, rfl⟩, by simp, by simp, rfl, by simp⟩
        · exact (innerLoop_spec env req cmap r ss sc rc).2 p hp
    next c hc =>
      obtain ⟨h1, h2, h3, h4, h5, h6, h7⟩ := processPair_spec env req s c r sc rc
      constructor
      · simp only [List.map_cons, h1, h2]
        rw [(innerLoop_spec env req cmap r ss _ _).1]
      · intro p hp
        rcases List.mem_cons.mp hp with hp | hp
        · subst hp
          refine ⟨fun hno => absurd hno h3, ?_, ?_, h6, ?_⟩
          · intro hu
            rw [h1, h2]
            exact h4 hu
          · intro e he
            rw [h1, h2]
            exact h5 e he
          · intro d hd
            exact ⟨rc, h7 d hd⟩
        · exact (innerLoop_spec env req cmap r ss _ _).2 p hp

/-- Invariant of the outer recipient loop: the logged pairs are the full
round-robin product in order — recipients outer, sessions inner — and every
log satisfies the per-pair guarantees. -/
theorem outerLoop_spec (env : Batch.BatchEnv) (req : Batch.BatchReq)
    (cmap : Str → Option Batch.Client) :
    ∀ (rs : List Str) (sc rc : Nat),
      ((Batch.outerLoop env req cmap rs sc rc).1.map (fun p => (p.recipient, p.sessionId))
        = rs.bind (fun r => req.sessionIds.map (fun s => (r, s)))) ∧
      ∀ p ∈ (Batch.outerLoop env req cmap rs sc rc).1,
        (p.res = Batch.PairRes.noClient → cmap p.sessionId = none ∧ p.entries = []) ∧
        (p.res = Batch.PairRes.unresolved →
          p.entries = [Batch.unresEntry p.sessionId p.recipient]) ∧
        (∀ e, p.res = Batch.PairRes.itemsErr e →
          Batch.catchEntry p.sessionId p.recipient e ∈ p.entries) ∧
        p.slept.isSome = Batch.resSleeps p.res ∧
        (∀ d, p.slept = some d →
          ∃ k, d = Batch.randomDelay req.delayMin req.delayMax (env.rand k))
  | [], sc, rc => ⟨rfl, by intro p hp; exact absurd hp (List.not_mem_nil p)⟩
  | r :: rs, sc, rc => by
    simp only [Batch.outerLoop]
    constructor
    · simp only [List.map_append, List.cons_bind]
      rw [(innerLoop_spec env req cmap r req.sessionIds sc rc).1,
        (outerLoop_spec env req cmap rs _ _).1]
    · intro p hp
      rcases List.mem_append.mp hp with hp | hp
      · exact (innerLoop_spec env req cmap r req.sessionIds sc rc).2 p hp
      · exact (outerLoop_spec env req cmap rs _ _).2 p hp

/-- The client map the prep loop produces: a session id maps to its ready
client exactly when it occurs in the traversed list and
`getOrRestoreClient` gave a ready client; otherwise the incoming map
persists. -/
theorem prepGo_lookup (env : Batch.BatchEnv) (s : Str) :
    ∀ (ss : List Str) (es : List Batch.Entry) (cm : Str → Option Batch.Client),
      (Batch.prepGo env ss es cm).2 s
        = if s ∈ ss ∧ (Batch.readyClient env s).isSome then Batch.readyClient env s else cm s
  | [], es, cm => by simp [Batch.prepGo]
  | s' :: ss, es, cm => by
    simp only [Batch.prepGo]
    cases hg : env.getOrRestore s' with
    | error e =>
      dsimp only
      rw [prepGo_lookup env s ss _ _]
      by_cases hss : s = s'
      · subst hss
        have hrc : Batch.readyClient env s = none := by
          simp [Batch.readyClient, hg]
        simp [hrc]
      · simp [List.mem_cons, hss]
    | ok c =>
      dsimp only
      by_cases hinfo : c.info = true
      · rw [if_pos hinfo, prepGo_lookup env s ss _ _]
        by_cases hss : s = s'
        · subst hss
          have hrc : Batch.readyClient env s = some c := by
            simp [Batch.readyClient, hg, hinfo]
          by_cases hmem : s ∈ ss
          · simp [hrc, hmem]
          · simp [hrc, hmem]
        · simp [List.mem_cons, hss]
      · rw [if_neg hinfo, prepGo_lookup env s ss _ _]
        by_cases hss : s = s'
        · subst hss
          have hrc : Batch.readyClient env s = none := by
            simp [Batch.readyClient, hg, hinfo]
          simp [hrc]
        · simp [List.mem_cons, hss]

/-- A validated call reduces to the 200 body built from the prep loop and
the round-robin double loop. -/
theorem sendBatch_run_eq (env : Batch.BatchEnv) (req : Batch.BatchReq)
    (hs : req.sessionIds ≠ []) (hr : req.recipients ≠ [])
    (hc : Batch.hasTextB req.text = true ∨ req.localMedia ≠ [] ∨ req.remoteMedia ≠ []) :
    Batch.sendBatchMessage env req = .ok
      ((Batch.prepClients env req.sessionIds).1 ++
        (Batch.outerLoop env req (Batch.prepClients env req.sessionIds).2
          req.recipients 0 0).1.bind (fun p => p.entries)).length
      ((Batch.prepClients env req.sessionIds).1 ++
        (Batch.outerLoop env req (Batch.prepClients env req.sessionIds).2
          req.recipients 0 0).1.bind (fun p => p.entries))
      (Batch.outerLoop env req (Batch.prepClients env req.sessionIds).2
        req.recipients 0 0).1 := by
  have hv1 : ¬(req.sessionIds.isEmpty = true) := by
    simp [hs]
  have hv2 : ¬(req.recipients.isEmpty = true) := by
    simp [hr]
  have hv3 : ¬((!Batch.hasTextB req.text && req.localMedia.isEmpty
      && req.remoteMedia.isEmpty) = true) := by
    rcases hc with h | h | h <;> simp [h]
  unfold Batch.sendBatchMessage
  rw [if_neg hv1, if_neg hv2, if_neg hv3]

/-- The `randomDelay` draw always lies in `[dmin, dmax]` when the random
source is in `[0, 1)` and the window is non-degenerate. -/
theorem randomDelay_bounds (dmin dmax : Int) (q : ℚ) (h0 : 0 ≤ q) (h1 : q < 1)
    (hle : dmin ≤ dmax) :
    dmin ≤ Batch.randomDelay dmin dmax q ∧ Batch.randomDelay dmin dmax q ≤ dmax := by
  unfold Batch.randomDelay
  have hmono : (dmin : ℚ) ≤ (dmax : ℚ) := by
    exact_mod_cast hle
  have hn : (0 : ℚ) < (dmax : ℚ) - (dmin : ℚ) + 1 := by
    linarith
  constructor
  · have hnn : (0 : ℚ) ≤ q * ((dmax : ℚ) - (dmin : ℚ) + 1) :=
      mul_nonneg h0 (le_of_lt hn)
    have hf : (0 : Int) ≤ ⌊q * ((dmax : ℚ) - (dmin : ℚ) + 1)⌋ := Int.floor_nonneg.mpr hnn
    omega
  · have hlt : q * ((dmax : ℚ) - (dmin : ℚ) + 1) < ((dmax - dmin + 1 : Int) : ℚ) := by
      push_cast
      have := mul_lt_mul_of_pos_right h1 hn
      rw [one_mul] at this
      exact this
    have hf : ⌊q * ((dmax : ℚ) - (dmin : ℚ) + 1)⌋ < dmax - dmin + 1 := Int.floor_lt.mpr hlt
    omega

/-- From the round-robin map identity, every logged pair's session id comes
from the session list. -/
theorem pair_sessionId_mem (logs : List Batch.PairLog) (rs ss : List Str)
    (hmap : logs.map (fun p => (p.recipient, p.sessionId))
      = rs.bind (fun r => ss.map (fun s => (r, s))))
    (p : Batch.PairLog) (hp : p ∈ logs) : p.sessionId ∈ ss := by
  have hmem : (p.recipient, p.sessionId) ∈ rs.bind (fun r => ss.map (fun s => (r, s))) := by
    rw [← hmap]
    exact List.mem_map_of_mem _ hp
  rcases List.mem_bind.mp hmem with ⟨r', _, hin⟩
  rcases List.mem_map.mp hin with ⟨s', hs', heq⟩
  have : p.sessionId = s' := (Prod.mk.injEq _ _ _ _).mp heq.symm |>.2
  rw [this]
  exact hs'

/-- C5: a batch over recipients `[A, B]` and ready sessions `[S1, S2]`
processes the (recipient, session) pairs strictly sequentially in the exact
order `(A,S1), (A,S2), (B,S1), (B,S2)` — recipients in the outer loop,
sessions in the inner loop — and with both sessions ready no pair is a
skipped `noClient` pair. -/
theorem batch_round_robin_order (env : Batch.BatchEnv) (req : Batch.BatchReq)
    (A B S1 S2 : Str) (c1 c2 : Batch.Client)
    (hsid : req.sessionIds = [S1, S2]) (hto : req.recipients = [A, B])
    (h1 : env.getOrRestore S1 = .ok c1) (h1r : c1.info = true)
    (h2 : env.getOrRestore S2 = .ok c2) (h2r : c2.info = true)
    (hc : Batch.hasTextB req.text = true ∨ req.localMedia ≠ [] ∨ req.remoteMedia ≠ []) :
    Batch.outIsOk (Batch.sendBatchMessage env req) = true ∧
    (Batch.outLogs (Batch.sendBatchMessage env req)).map (fun p => (p.recipient, p.sessionId))
      = [(A, S1), (A, S2), (B, S1), (B, S2)] ∧
    ∀ p ∈ Batch.outLogs (Batch.sendBatchMessage env req), p.res ≠ Batch.PairRes.noClient := by
  have hrun := sendBatch_run_eq env req (by simp [hsid]) (by simp [hto]) hc
  rw [hrun]
  have hspec := outerLoop_spec env req (Batch.prepClients env req.sessionIds).2
    req.recipients 0 0
  have hmap : (Batch.outerLoop env req (Batch.prepClients env req.sessionIds).2
      req.recipients 0 0).1.map (fun p => (p.recipient, p.sessionId))
      = [(A, S1), (A, S2), (B, S1), (B, S2)] := by
    rw [hspec.1, hsid, hto]
    rfl
  refine ⟨rfl, ?_, ?_⟩
  · simpa [Batch.outLogs] using hmap
  · intro p hp hno
    simp only [Batch.outLogs] at hp
    have hnone := (hspec.2 p hp).1 hno
    have hsidmem : p.sessionId ∈ [S1, S2] := by
      refine pair_sessionId_mem _ req.recipients [S1, S2] ?_ p hp
      rw [hspec.1, hsid]
    have hcm : ∀ sx cx, sx ∈ req.sessionIds → env.getOrRestore sx = .ok cx →
        cx.info = true → (Batch.prepClients env req.sessionIds).2 sx = some cx := by
      intro sx cx hmem hgx hix
      unfold Batch.prepClients
      rw [prepGo_lookup env sx req.sessionIds [] _]
      have hrc : Batch.readyClient env sx = some cx := by
        simp [Batch.readyClient, hgx, hix]
      simp [hmem, hrc]
    have hsor : p.sessionId = S1 ∨ p.sessionId = S2 := by
      simpa using hsidmem
    rcases hsor with h | h
    · have hsome := hcm S1 c1 (by rw [hsid]; simp) h1 h1r
      have hx := hnone.1
      rw [h, hsome] at hx
      exact Option.noConfusion hx
    · have hsome := hcm S2 c2 (by rw [hsid]; simp) h2 h2r
      have hx := hnone.1
      rw [h, hsome] at hx
      exact Option.noConfusion hx

/-- A ready client for the batch witnesses. -/
def c5Client : Batch.Client := { info := true, chats := [] }

/-- Witness environment for C5: every session restores ready, sends
succeed. -/
def c5Env : Batch.BatchEnv :=
  { getOrRestore := fun _ => .ok c5Client,
    send := fun _ => .ok ("m1".toList), rand := fun _ => (1 : ℚ) / 2 }

/-- Witness request for C5: two phone recipients over two sessions. -/
def c5Req : Batch.BatchReq :=
  { sessionIds := [("s1".toList), ("s2".toList)],
    recipients := [("11111111111".toList), ("22222222222".toList)],
    text := some ("hi".toList), localMedia := [], remoteMedia := [],
    delayMin := 0, delayMax := 0 }

/-- Witness for C5 at a concrete 2×2 batch. -/
theorem batch_round_robin_order_witness :
    Batch.outIsOk (Batch.sendBatchMessage c5Env c5Req) = true ∧
    (Batch.outLogs (Batch.sendBatchMessage c5Env c5Req)).map
        (fun p => (p.recipient, p.sessionId))
      = [(("11111111111".toList), ("s1".toList)), (("11111111111".toList), ("s2".toList)),
         (("22222222222".toList), ("s1".toList)), (("22222222222".toList), ("s2".toList))] := by
  have h := batch_round_robin_order c5Env c5Req ("11111111111".toList) ("22222222222".toList)
    ("s1".toList) ("s2".toList) c5Client c5Client rfl rfl rfl rfl rfl rfl
    (Or.inl (by decide))
  exact ⟨h.1, h.2.1⟩

/-- C7: for every validated batch request, the call returns the 200 success
body; every (recipient, session) pair is visited in round-robin order
regardless of individual failures (a failing pair never aborts the loops);
an unresolvable recipient yields exactly one failed entry with the
`Recipient not found` message, a thrown send yields a failed entry carrying
the error message, and every per-pair entry lands in the returned ledger. -/
theorem batch_partial_failure_tolerant (env : Batch.BatchEnv) (req : Batch.BatchReq)
    (hs : req.sessionIds ≠ []) (hr : req.recipients ≠ [])
    (hc : Batch.hasTextB req.text = true ∨ req.localMedia ≠ [] ∨ req.remoteMedia ≠ []) :
    Batch.outIsOk (Batch.sendBatchMessage env req) = true ∧
    (Batch.outLogs (Batch.sendBatchMessage env req)).map (fun p => (p.recipient, p.sessionId))
      = req.recipients.bind (fun r => req.sessionIds.map (fun s => (r, s))) ∧
    ∀ p ∈ Batch.outLogs (Batch.sendBatchMessage env req),
      (p.res = Batch.PairRes.unresolved →
        p.entries = [Batch.unresEntry p.sessionId p.recipient]) ∧
      (∀ e, p.res = Batch.PairRes.itemsErr e →
        Batch.catchEntry p.sessionId p.recipient e ∈ p.entries) ∧
      (∀ en ∈ p.entries, en ∈ Batch.outResults (Batch.sendBatchMessage env req)) := by
  have hrun := sendBatch_run_eq env req hs hr hc
  rw [hrun]
  have hspec := outerLoop_spec env req (Batch.prepClients env req.sessionIds).2
    req.recipients 0 0
  refine ⟨rfl, ?_, ?_⟩
  · simpa [Batch.outLogs] using hspec.1
  · intro p hp
    simp only [Batch.outLogs] at hp
    have h := hspec.2 p hp
    refine ⟨h.2.1, h.2.2.1, ?_⟩
    intro en hen
    simp only [Batch.outResults]
    exact List.mem_append_right _ (List.mem_bind.mpr ⟨p, hp, hen⟩)

/-- Witness client for C7. -/
def c7Client : Batch.Client := { info := true, chats := [] }

/-- Witness environment for C7: ready client, failing transport. -/
def c7Env : Batch.BatchEnv :=
  { getOrRestore := fun _ => .ok c7Client,
    send := fun _ => .error ("fail".toList), rand := fun _ => (1 : ℚ) / 2 }

/-- Witness request for C7: one unresolvable recipient and one phone. -/
def c7Req : Batch.BatchReq :=
  { sessionIds := [("s1".toList)],
    recipients := [("group x".toList), ("11111111111".toList)],
    text := some ("hi".toList), localMedia := [], remoteMedia := [],
    delayMin := 0, delayMax := 0 }

/-- Witness for C7 at a concrete partially failing batch. -/
theorem batch_partial_failure_tolerant_witness :
    Batch.outIsOk (Batch.sendBatchMessage c7Env c7Req) = true ∧
    (Batch.outLogs (Batch.sendBatchMessage c7Env c7Req)).map
        (fun p => (p.recipient, p.sessionId))
      = [(("group x".toList), ("s1".toList)), (("11111111111".toList), ("s1".toList))] := by
  have h := batch_partial_failure_tolerant c7Env c7Req (by decide) (by decide)
    (Or.inl (by decide))
  refine ⟨h.1, ?_⟩
  rw [h.2.1]
  rfl

/-- C6 as amended: every slept inter-pair delay is a fresh `randomDelay`
draw lying within `[delayMin, delayMax]`, and the delay is slept exactly
for the pairs whose items all succeeded — a pair whose send throws (or
whose recipient does not resolve) skips the delay; independently of the
delay window (in particular with `delayMin = delayMax = 0`) every pair is
still processed exactly once, in round-robin order. -/
theorem batch_delay_window (env : Batch.BatchEnv) (req : Batch.BatchReq)
    (hrand : ∀ n, 0 ≤ env.rand n ∧ env.rand n < 1)
    (hle : req.delayMin ≤ req.delayMax)
    (hs : req.sessionIds ≠ []) (hr : req.recipients ≠ [])
    (hc : Batch.hasTextB req.text = true ∨ req.localMedia ≠ [] ∨ req.remoteMedia ≠ []) :
    (∀ p ∈ Batch.outLogs (Batch.sendBatchMessage env req),
       (∀ d, p.slept = some d → req.delayMin ≤ d ∧ d ≤ req.delayMax) ∧
       p.slept.isSome = Batch.resSleeps p.res) ∧
    (Batch.outLogs (Batch.sendBatchMessage env req)).map (fun p => (p.recipient, p.sessionId))
      = req.recipients.bind (fun r => req.sessionIds.map (fun s => (r, s))) := by
  have hrun := sendBatch_run_eq env req hs hr hc
  rw [hrun]
  have hspec := outerLoop_spec env req (Batch.prepClients env req.sessionIds).2
    req.recipients 0 0
  constructor
  · intro p hp
    simp only [Batch.outLogs] at hp
    have h := hspec.2 p hp
    refine ⟨?_, h.2.2.2.1⟩
    intro d hd
    rcases h.2.2.2.2 d hd with ⟨k, hk⟩
    rw [hk]
    exact randomDelay_bounds _ _ _ (hrand k).1 (hrand k).2 hle
  · simpa [Batch.outLogs] using hspec.1

/-- Witness environment for the amended C6: sends succeed. -/
def c6wEnv : Batch.BatchEnv :=
  { getOrRestore := fun _ => .ok { info := true, chats := [] },
    send := fun _ => .ok ("m1".toList), rand := fun _ => (1 : ℚ) / 2 }

/-- Witness request for the amended C6: zero-width delay window. -/
def c6wReq : Batch.BatchReq :=
  { sessionIds := [("s1".toList)], recipients := [("12345678901".toList)],
    text := some ("hi".toList), localMedia := [], remoteMedia := [],
    delayMin := 0, delayMax := 0 }

/-- Witness for the amended C6: with a zero delay window the single pair is
still processed exactly once. -/
theorem batch_delay_window_witness :
    (Batch.outLogs (Batch.sendBatchMessage c6wEnv c6wReq)).map
        (fun p => (p.recipient, p.sessionId))
      = [(("12345678901".toList), ("s1".toList))] := by
  have h := batch_delay_window c6wEnv c6wReq
    (fun n => by constructor <;> norm_num [c6wEnv]) (by decide) (by decide) (by decide)
    (Or.inl (by decide))
  rw [h.2]
  rfl

/-- Environment for the C6 counterexample: the single send throws. -/
def c6Env : Batch.BatchEnv :=
  { getOrRestore := fun _ => .ok { info := true, chats := [] },
    send := fun _ => .error ("boom".toList), rand := fun _ => (1 : ℚ) / 2 }

/-- Request for the C6 counterexample: one resolvable phone recipient,
non-trivial delay window. -/
def c6Req : Batch.BatchReq :=
  { sessionIds := [("s1".toList)], recipients := [("12345678901".toList)],
    text := some ("hi".toList), localMedia := [], remoteMedia := [],
    delayMin := 5, delayMax := 7 }

/-- C6 (claim fails on the code): a pair that resolves but whose send
throws is NOT charged the inter-pair delay — the `catch` skips the
`await delay(...)` — contradicting "the delay is charged whether the pair's
sends succeeded or failed". -/
theorem batch_failed_send_skips_delay :
    Batch.outLogs (Batch.sendBatchMessage c6Env c6Req)
      = [{ recipient := ("12345678901".toList), sessionId := ("s1".toList),
           res := Batch.PairRes.itemsErr ("boom".toList), slept := none,
           entries := [Batch.catchEntry ("s1".toList) ("12345678901".toList)
             ("boom".toList)] }] := by
  rfl
